import Mathlib

/-!
# Verification of the agora-protocol negotiation/synthesis pipeline

A shallow embedding of the repository's core components:

* `receiver/components/protocol_checker.py` — the feasibility decision rule;
* `toolformers/base.py` — the Parameter/Tool schema model and its renderings;
* `sender/components/negotiator.py` — the bounded negotiation loop;
* `sender/components/programmer.py` — the bounded synthesis loop and its
  post-processing of extracted implementations.

Python strings are modelled as `List Char` (`Str`); Python dicts whose values
are JSON-like data are modelled as association lists over `JValue`.  The
helpers `utils.extract_substring` and `utils.extract_metadata` and the class
`common.core.Protocol` are imported by the sources but their files are not part
of the repository snapshot; they are modelled from the spec, as marked in
their doc comments.
-/

/-- Python strings, modelled as lists of characters.  The embedding models the
ASCII behaviour of `str.lower` / `str.strip`, which covers every string the
sources construct. -/
abbrev Str := List Char

/-- A Lean string literal as a `Str`. -/
def lit (s : String) : Str := s.data

/-- The whitespace characters removed by Python's `str.strip()` (ASCII part). -/
def isWsChar (c : Char) : Bool :=
  c == ' ' || c == '\t' || c == '\n' || c == '\r' || c == '\x0b' || c == '\x0c'

/-- Python's `str.lower()` on one character (ASCII part). -/
def toLowerChar : Char → Char
  | 'A' => 'a' | 'B' => 'b' | 'C' => 'c' | 'D' => 'd' | 'E' => 'e'
  | 'F' => 'f' | 'G' => 'g' | 'H' => 'h' | 'I' => 'i' | 'J' => 'j'
  | 'K' => 'k' | 'L' => 'l' | 'M' => 'm' | 'N' => 'n' | 'O' => 'o'
  | 'P' => 'p' | 'Q' => 'q' | 'R' => 'r' | 'S' => 's' | 'T' => 't'
  | 'U' => 'u' | 'V' => 'v' | 'W' => 'w' | 'X' => 'x' | 'Y' => 'y'
  | 'Z' => 'z'
  | c => c

/-- Whether `needle` is a prefix of the text, matching on the needle first so
that the test reduces definitionally even on a partially symbolic text. -/
def isPrefixOfB : Str → Str → Bool
  | [], _ => true
  | a :: as, s =>
      match s with
      | [] => false
      | b :: bs => a == b && isPrefixOfB as bs

/-- Python's `needle in haystack` substring test. -/
def containsSub (needle : Str) : Str → Bool
  | [] => isPrefixOfB needle []
  | c :: rest => isPrefixOfB needle (c :: rest) || containsSub needle rest

/-- Whitespace removal at the front (the first half of `str.strip()`). -/
def trimLeft (l : Str) : Str := l.dropWhile isWsChar

/-- Whitespace removal at the back (the second half of `str.strip()`). -/
def trimRight (l : Str) : Str := (l.reverse.dropWhile isWsChar).reverse

/-- Python's `str.strip()`. -/
def stripWs (l : Str) : Str := trimRight (trimLeft l)

/-- Python's slice `s[-n:]`: the last `n` characters (all of `s` when it is
shorter). -/
def lastN (n : Nat) (l : Str) : Str := l.drop (l.length - n)

/-- `ReceiverProtocolChecker.__call__`'s decision
(`receiver/components/protocol_checker.py`):
`'yes' in reply.lower().strip()[-10:]`. -/
def receiverCheckerDecision (reply : Str) : Bool :=
  containsSub (lit "yes") (lastN 10 (stripWs (reply.map toLowerChar)))

/-- The spec's decision rule as it is worded: true iff the case-insensitive
substring "yes" appears within the last 10 characters of the trimmed reply. -/
def specFeasibilityDecision (reply : Str) : Bool :=
  containsSub (lit "yes") ((lastN 10 (stripWs reply)).map toLowerChar)

/-- JSON-like values: the Python data (strings, booleans, lists, dicts) that
the schema model moves around.  A Python dict is an association list of
key/value pairs in insertion order. -/
inductive JValue where
  | jstr (s : Str)
  | jbool (b : Bool)
  | jarr (xs : List JValue)
  | jobj (fields : List (Str × JValue))

/-- Python dict lookup `d[key]` on an association list: the first matching
key's value, `none` for a KeyError. -/
def jlookup : List (Str × JValue) → Str → Option JValue
  | [], _ => none
  | (k, v) :: rest, key => if k = key then some v else jlookup rest key

/-- A piece of `json.dumps`'s string escaping (quote, backslash and the common
control characters). -/
def jescapeChar (c : Char) : Str :=
  if c == '"' then lit "\\\"" else if c == '\\' then lit "\\\\"
  else if c == '\n' then lit "\\n" else if c == '\t' then lit "\\t"
  else if c == '\r' then lit "\\r" else [c]

mutual

/-- `json.dumps` with its default separators, as the array/enum renderings in
`toolformers/base.py` call it. -/
def jdump : JValue → Str
  | .jstr s => '"' :: (s.map jescapeChar).flatten ++ ['"']
  | .jbool true => lit "true"
  | .jbool false => lit "false"
  | .jarr xs => lit "[" ++ jdumpArr xs ++ lit "]"
  | .jobj fs => lit "\x7b" ++ jdumpObj fs ++ lit "\x7d"

def jdumpArr : List JValue → Str
  | [] => []
  | [x] => jdump x
  | x :: y :: rest => jdump x ++ lit ", " ++ jdumpArr (y :: rest)

def jdumpObj : List (Str × JValue) → Str
  | [] => []
  | [(k, v)] => jdump (.jstr k) ++ lit ": " ++ jdump v
  | (k, v) :: f :: rest => jdump (.jstr k) ++ lit ": " ++ jdump v ++ lit ", " ++ jdumpObj (f :: rest)

end

/-- The Parameter variants of `toolformers/base.py`: StringParameter,
EnumParameter, NumberParameter, ArrayParameter, with the fields their
constructors store. -/
inductive Parameter where
  | string (name description : Str) (required : Bool)
  | enum (name description : Str) (values : List Str) (required : Bool)
  | number (name description : Str) (required : Bool)
  | array (name description : Str) (required : Bool) (item_schema : JValue)

/-- The `self.name` field every variant stores. -/
def Parameter.name : Parameter → Str
  | .string n _ _ => n
  | .enum n _ _ _ => n
  | .number n _ _ => n
  | .array n _ _ _ => n

/-- The `self.description` field every variant stores. -/
def Parameter.description : Parameter → Str
  | .string _ d _ => d
  | .enum _ d _ _ => d
  | .number _ d _ => d
  | .array _ d _ _ => d

/-- The `self.required` field every variant stores. -/
def Parameter.required : Parameter → Bool
  | .string _ _ r => r
  | .enum _ _ _ r => r
  | .number _ _ r => r
  | .array _ _ r _ => r

/-- The same parameter with its `required` field replaced. -/
def Parameter.setRequired : Parameter → Bool → Parameter
  | .string n d _, r => .string n d r
  | .enum n d vs _, r => .enum n d vs r
  | .number n d _, r => .number n d r
  | .array n d _ sch, r => .array n d r sch

/-- `as_openai_info` of each variant, key for key as the source builds the
dict. -/
def as_openai_info : Parameter → List (Str × JValue)
  | .string n d _ =>
      [(lit "type", .jstr (lit "string")), (lit "name", .jstr n),
       (lit "description", .jstr d)]
  | .enum _ d vs _ =>
      [(lit "type", .jstr (lit "string")), (lit "description", .jstr d),
       (lit "values", .jarr (vs.map .jstr))]
  | .number _ d _ =>
      [(lit "type", .jstr (lit "number")), (lit "description", .jstr d)]
  | .array _ d _ sch =>
      [(lit "type", .jstr (lit "array")), (lit "description", .jstr d),
       (lit "items", sch)]

/-- `as_standard_api` of each variant, key for key as the source builds the
dict. -/
def as_standard_api : Parameter → List (Str × JValue)
  | .string n d r =>
      [(lit "type", .jstr (lit "string")), (lit "name", .jstr n),
       (lit "description", .jstr d), (lit "required", .jbool r)]
  | .enum n d vs r =>
      [(lit "type", .jstr (lit "enum")), (lit "name", .jstr n),
       (lit "description", .jstr d), (lit "values", .jarr (vs.map .jstr)),
       (lit "required", .jbool r)]
  | .number n d r =>
      [(lit "type", .jstr (lit "number")), (lit "name", .jstr n),
       (lit "description", .jstr d), (lit "required", .jbool r)]
  | .array n d r sch =>
      [(lit "type", .jstr (lit "array")), (lit "name", .jstr n),
       (lit "description", .jstr d), (lit "required", .jbool r),
       (lit "item_schema", sch)]

/-- Python's `", ".join(values)` (for any separator). -/
def joinSep (sep : Str) : List Str → Str
  | [] => []
  | [x] => x
  | x :: y :: rest => x ++ sep ++ joinSep sep (y :: rest)

/-- The `", required" if self.required else ""` piece of the f-strings. -/
def reqSuffix : Bool → Str
  | true => lit ", required"
  | false => []

/-- `as_natural_language` of each variant, f-string for f-string. -/
def as_natural_language : Parameter → Str
  | .string n d r => n ++ lit " (string" ++ reqSuffix r ++ lit "): " ++ d ++ lit "."
  | .enum n d vs r =>
      n ++ lit " (enum" ++ reqSuffix r ++ lit "): " ++ d ++
        lit ". Possible values: " ++ joinSep (lit ", ") vs
  | .number n d _ => n ++ lit " (number): " ++ d
  | .array n d _ sch =>
      n ++ lit " (array): " ++ d ++
        lit ". Each item should follow the JSON schema: " ++ jdump sch

/-- `as_documented_python` of each variant, f-string for f-string. -/
def as_documented_python : Parameter → Str
  | .string n d r => n ++ lit " (str" ++ reqSuffix r ++ lit "): " ++ d ++ lit "."
  | .enum n d vs r =>
      n ++ lit " (str" ++ reqSuffix r ++ lit "): " ++ d ++
        lit ". Possible values: " ++ joinSep (lit ", ") vs
  | .number n d _ => n ++ lit " (number): " ++ d
  | .array n d _ sch =>
      n ++ lit " (list): " ++ d ++
        lit ". Each item should follow the JSON schema: " ++ jdump sch

/-- A JSON array all of whose elements are strings, as a string list. -/
def strListOf : List JValue → Option (List Str)
  | [] => some []
  | .jstr s :: rest => (strListOf rest).map (s :: ·)
  | _ :: _ => none

/-- `StringParameter.from_standard_api`: rebuilds from `api_info["name"]`,
`["description"]`, `["required"]`.  A missing key (Python KeyError) or a value
of the wrong runtime type is modelled as `none`. -/
def StringParameter.from_standard_api (api : List (Str × JValue)) : Option Parameter :=
  match jlookup api (lit "name"), jlookup api (lit "description"),
      jlookup api (lit "required") with
  | some (.jstr n), some (.jstr d), some (.jbool r) => some (.string n d r)
  | _, _, _ => none

/-- `EnumParameter.from_standard_api`: rebuilds from `api_info["name"]`,
`["description"]`, `["values"]`, `["required"]`, with the same modelling of
failures as the String case. -/
def EnumParameter.from_standard_api (api : List (Str × JValue)) : Option Parameter :=
  match jlookup api (lit "name"), jlookup api (lit "description"),
      jlookup api (lit "values"), jlookup api (lit "required") with
  | some (.jstr n), some (.jstr d), some (.jarr vs), some (.jbool r) =>
      match strListOf vs with
      | some ss => some (.enum n d ss r)
      | none => none
  | _, _, _, _ => none

/-- Reconstruction of a Parameter from a standard schema.  The source defines
`from_standard_api` only on `StringParameter` and `EnumParameter`;
`NumberParameter` and `ArrayParameter` declare no such method, so an attribute
lookup on them fails — modelled as `none`.  A standard schema is routed to the
class its "type" tag names. -/
def Parameter.from_standard_api (api : List (Str × JValue)) : Option Parameter :=
  match jlookup api (lit "type") with
  | some (.jstr t) =>
      if t = lit "string" then StringParameter.from_standard_api api
      else if t = lit "enum" then EnumParameter.from_standard_api api
      else none
  | _ => none

/-- The failures `parameter_from_openai_api` can raise: a missing dict key
(Python KeyError), a value whose runtime type does not fit (Python would defer
such a mismatch to later rendering; the embedding surfaces it here), and
`ValueError(f'Unknown parameter type: ...')`. -/
inductive ApiError where
  | keyError (k : Str)
  | dynamicTypeError
  | unknownParameterType (t : JValue)

/-- `parameter_from_openai_api` (`toolformers/base.py`): dispatches on the
presence of an "enum" key first, then on the "type" value; any other type
raises the unknown-parameter-type ValueError. -/
def parameter_from_openai_api (parameter_name : Str) (schema : List (Str × JValue))
    (required : Bool) : Except ApiError Parameter :=
  match jlookup schema (lit "enum") with
  | some ev =>
      match jlookup schema (lit "description") with
      | some (.jstr d) =>
          match ev with
          | .jarr vs =>
              match strListOf vs with
              | some ss => .ok (.enum parameter_name d ss required)
              | none => .error .dynamicTypeError
          | _ => .error .dynamicTypeError
      | some _ => .error .dynamicTypeError
      | none => .error (.keyError (lit "description"))
  | none =>
      match jlookup schema (lit "type") with
      | some (.jstr t) =>
          if t = lit "string" then
            match jlookup schema (lit "description") with
            | some (.jstr d) => .ok (.string parameter_name d required)
            | some _ => .error .dynamicTypeError
            | none => .error (.keyError (lit "description"))
          else if t = lit "number" then
            match jlookup schema (lit "description") with
            | some (.jstr d) => .ok (.number parameter_name d required)
            | some _ => .error .dynamicTypeError
            | none => .error (.keyError (lit "description"))
          else if t = lit "array" then
            match jlookup schema (lit "description") with
            | some (.jstr d) =>
                match jlookup schema (lit "items") with
                | some it => .ok (.array parameter_name d required it)
                | none => .error (.keyError (lit "items"))
            | some _ => .error .dynamicTypeError
            | none => .error (.keyError (lit "description"))
          else .error (.unknownParameterType (.jstr t))
      | some t => .error (.unknownParameterType t)
      | none => .error (.keyError (lit "type"))

/-- The spec's §4.1 invariant, stated from its words: for a fixed Parameter,
all four renderings agree on name, description, and required-ness.  A dict
rendering agrees on a field when the field's key holds it; a text rendering
agrees on name/description when it contains them; a rendering agrees on
required-ness when it distinguishes the two values of `required` (everything
else held fixed). -/
def fourRenderingsAgree (p : Parameter) : Prop :=
  jlookup (as_openai_info p) (lit "name") = some (.jstr p.name) ∧
  jlookup (as_standard_api p) (lit "name") = some (.jstr p.name) ∧
  containsSub p.name (as_natural_language p) = true ∧
  containsSub p.name (as_documented_python p) = true ∧
  jlookup (as_openai_info p) (lit "description") = some (.jstr p.description) ∧
  jlookup (as_standard_api p) (lit "description") = some (.jstr p.description) ∧
  containsSub p.description (as_natural_language p) = true ∧
  containsSub p.description (as_documented_python p) = true ∧
  as_openai_info (p.setRequired !p.required) ≠ as_openai_info p ∧
  jlookup (as_standard_api p) (lit "required") = some (.jbool p.required) ∧
  as_natural_language (p.setRequired !p.required) ≠ as_natural_language p ∧
  as_documented_python (p.setRequired !p.required) ≠ as_documented_python p

/-- The backtick character (codepoint 96), the Markdown fence character. -/
def fenceChar : Char := Char.ofNat 96

/-- A Tool of `toolformers/base.py`: name, description, parameters, the
wrapped function, and an optional output schema.  The wrapped function takes
the call's arguments and either returns a reply or raises an exception whose
text is the `Except` error. -/
structure Tool where
  name : Str
  description : Str
  parameters : List Parameter
  function : List JValue → Except Str Str
  output_schema : Option JValue

/-- `Tool.call_tool_for_toolformer`: unlike a call from a routine, this call
catches exceptions and returns them as strings
(`'Tool call failed: ' + str(e)`). -/
def Tool.call_tool_for_toolformer (t : Tool) (args : List JValue) : Str :=
  match t.function args with
  | .ok tool_reply => tool_reply
  | .error e => lit "Tool call failed: " ++ e

/-- Modelled from the spec: a helper of `utils.extract_substring` (the file is
not in the repository snapshot) — the text after the first occurrence of
`needle`, `none` when `needle` does not occur. -/
def dropAfterFirst (needle : Str) : Str → Option Str
  | [] => if isPrefixOfB needle [] then some [] else none
  | c :: rest =>
      if isPrefixOfB needle (c :: rest) then
        some (List.drop needle.length (c :: rest))
      else dropAfterFirst needle rest

/-- Modelled from the spec: the other helper of `utils.extract_substring` —
the text before the first occurrence of `needle`, `none` when `needle` does
not occur. -/
def takeBeforeFirst (needle : Str) : Str → Option Str
  | [] => if isPrefixOfB needle [] then some [] else none
  | c :: rest =>
      if isPrefixOfB needle (c :: rest) then some []
      else (takeBeforeFirst needle rest).map (c :: ·)

/-- Modelled from the spec: `utils.extract_substring` (its file is not in the
repository snapshot).  Spec §4.3/§6: extraction of a delimited block fails
when there are no matching delimiters or the closing tag is missing, and
otherwise yields the text between the first opening tag and the first closing
tag after it. -/
def extract_substring (text startTag endTag : Str) : Option Str :=
  (dropAfterFirst startTag text).bind fun rest => takeBeforeFirst endTag rest

/-- Protocol metadata (spec §3/§4.3): name, description, multiround. -/
structure ProtocolMetadata where
  name : Str
  description : Str
  multiround : Bool

/-- The lines of a text, split on newline characters. -/
def splitLinesAux : Str → Str → List Str
  | [], acc => [acc.reverse]
  | '\n' :: rest, acc => acc.reverse :: splitLinesAux rest []
  | c :: rest, acc => splitLinesAux rest (c :: acc)

/-- The lines of a text, split on newline characters. -/
def splitLines (s : Str) : List Str := splitLinesAux s []

/-- A line whose trimmed text is the `---` header delimiter. -/
def isDashesLine (l : Str) : Bool := stripWs l == lit "---"

/-- The lines of the `---`-delimited header at the top of a protocol body:
everything between the first delimiter line and the next one. -/
def headerLines (ls : List Str) : List Str :=
  match ls.dropWhile (fun l => !isDashesLine l) with
  | [] => []
  | _ :: after => after.takeWhile (fun l => !isDashesLine l)

/-- The value of a `key: value` metadata line, when the line carries the key. -/
def keyValueOf (key : Str) (l : Str) : Option Str :=
  if isPrefixOfB key (stripWs l) then
    some (stripWs (List.drop key.length (stripWs l)))
  else none

/-- The first metadata line carrying the key, as its value. -/
def findValue (key : Str) : List Str → Option Str
  | [] => none
  | l :: rest =>
      match keyValueOf key l with
      | some v => some v
      | none => findValue key rest

/-- Modelled from the spec: `utils.extract_metadata` (its file is not in the
repository snapshot).  Spec §4.3: parse the metadata header delimited by a
pair of `---` lines at the top of the extracted body for `name:`,
`description:` and `multiround:` key-value lines (multiround read
case-insensitively); missing keys default to "Unnamed protocol", an empty
description and `multiround = false`. -/
def extract_metadata (body : Str) : ProtocolMetadata :=
  let hdr := headerLines (splitLines body)
  { name := (findValue (lit "name:") hdr).getD (lit "Unnamed protocol")
    description := (findValue (lit "description:") hdr).getD []
    multiround :=
      match findValue (lit "multiround:") hdr with
      | some v => v.map toLowerChar == lit "true"
      | none => false }

/-- Modelled from the spec: `common.core.Protocol` (its file is not in the
repository snapshot) — the negotiated body text, the sources list, and the
metadata parsed from the body's delimited header (spec §3).
`SenderNegotiator` constructs it as `Protocol(protocol, [], metadata)`. -/
structure Protocol where
  text : Str
  sources : List Str
  metadata : ProtocolMetadata

/-- The `other_party` callback's response dict: a `status`, a `body` used on
success and a `message` used on failure. -/
structure CallbackResponse where
  status : Str
  body : Str
  message : Str

/-- The round loop of `SenderNegotiator.negotiate_protocol_for_task`
(`sender/components/negotiator.py`): `conv round outgoing` is the
Conversation's reply at that round, `callback` the external counterparty.
When no `<FINALPROTOCOL>` block can be extracted, the counterparty's body (or,
on a non-success status, an error report quoting its failure message) becomes
the next outgoing message; when one can, the Protocol is built and the loop
stops. -/
def negotiateLoop (conv : Nat → Str → Str) (callback : Str → CallbackResponse) :
    Nat → Nat → Str → Option Protocol
  | 0, _, _ => none
  | fuel + 1, round, otherMessage =>
      let message := conv round otherMessage
      match extract_substring message (lit "<FINALPROTOCOL>") (lit "</FINALPROTOCOL>") with
      | none =>
          let response := callback message
          let next :=
            if response.status = lit "success" then response.body
            else lit "Error interacting with the other party: " ++ response.message
          negotiateLoop conv callback fuel (round + 1) next
      | some protocolBody => some ⟨protocolBody, [], extract_metadata protocolBody⟩

/-- `SenderNegotiator.negotiate_protocol_for_task`, for a conversation already
opened on the task prompt: up to `max_rounds` rounds starting from the
greeting, returning the extracted Protocol or `none` when the rounds are
exhausted. -/
def negotiate_protocol_for_task (conv : Nat → Str → Str)
    (callback : Str → CallbackResponse) (max_rounds : Nat) : Option Protocol :=
  negotiateLoop conv callback max_rounds 0 (lit "Hello! How may I help you?")

/-- Python's `str.replace(needle, repl)` scan: left to right, each
non-overlapping occurrence replaced, no rescanning of replaced text.  `fuel`
bounds the recursion; `replaceAll` supplies the text's length, which the scan
never exceeds. -/
def replaceAllGo (needle repl : Str) : Nat → Str → Str
  | _, [] => []
  | 0, s => s
  | fuel + 1, c :: rest =>
      if isPrefixOfB needle (c :: rest) then
        repl ++ replaceAllGo needle repl fuel (List.drop needle.length (c :: rest))
      else c :: replaceAllGo needle repl fuel rest

/-- Python's `str.replace(needle, repl)` (for a non-empty needle). -/
def replaceAll (needle repl s : Str) : Str := replaceAllGo needle repl s.length s

/-- The post-processing `SenderProgrammer.__call__` applies to an extracted
implementation: strip, remove the Markdown fence markers, strip again, and
rename the entry point `def send_query(` to `def run(`. -/
def postprocessImplementation (impl : Str) : Str :=
  replaceAll (lit "def send_query(") (lit "def run(")
    (stripWs (replaceAll (lit "```") []
      (replaceAll (lit "```python") [] (stripWs impl))))

/-- The corrective message sent on an attempt that extracted nothing. -/
def nudgeMessage : Str :=
  lit "You have not provided an implementation yet. Please provide one by surrounding it in the tags <IMPLEMENTATION> and </IMPLEMENTATION>."

/-- The attempt loop of `SenderProgrammer.__call__`
(`sender/components/programmer.py`): up to `fuel` attempts, the first with the
given message and the rest with the corrective nudge; `some` holds the first
extracted `<IMPLEMENTATION>` block. -/
def synthLoop (conv : Nat → Str → Str) : Nat → Nat → Str → Option Str
  | 0, _, _ => none
  | fuel + 1, attempt, message =>
      let reply := conv attempt message
      match extract_substring reply (lit "<IMPLEMENTATION>") (lit "</IMPLEMENTATION>") with
      | some implementation => some implementation
      | none => synthLoop conv fuel (attempt + 1) nudgeMessage

/-- How `SenderProgrammer.__call__` actually fails when no attempt yields an
implementation: it evaluates `implementation.strip()` with `implementation`
still `None`, an AttributeError — not a distinct ImplementationNotFound
condition. -/
inductive SynthFailure where
  | attributeErrorOnNone

/-- `SenderProgrammer.__call__`, for a conversation already opened on the
programmer prompt: runs the attempt loop and post-processes the extracted
implementation; when no attempt extracts one, the call crashes
(`SynthFailure.attributeErrorOnNone`). -/
def senderProgrammerCall (conv : Nat → Str → Str) (num_attempts : Nat)
    (message : Str) : Except SynthFailure Str :=
  match synthLoop conv num_attempts 0 message with
  | none => .error .attributeErrorOnNone
  | some implementation => .ok (postprocessImplementation implementation)

theorem isWs_toLowerChar (c : Char) : isWsChar (toLowerChar c) = isWsChar c := by
  unfold toLowerChar
  split <;> rfl

theorem wsComp_eq : (isWsChar ∘ toLowerChar) = isWsChar :=
  funext fun c => isWs_toLowerChar c

theorem trimLeft_map_toLower (l : Str) :
    trimLeft (l.map toLowerChar) = (trimLeft l).map toLowerChar := by
  unfold trimLeft
  rw [ List.dropWhile_map, wsComp_eq]

theorem trimRight_map_toLower (l : Str) :
    trimRight (l.map toLowerChar) = (trimRight l).map toLowerChar := by
  unfold trimRight
  rw [← List.map_reverse, List.dropWhile_map, wsComp_eq, List.map_reverse]

theorem stripWs_map_toLower (l : Str) :
    stripWs (l.map toLowerChar) = (stripWs l).map toLowerChar := by
  unfold stripWs
  rw [trimLeft_map_toLower, trimRight_map_toLower]

theorem lastN_map_toLower (n : Nat) (l : Str) :
    lastN n (l.map toLowerChar) = (lastN n l).map toLowerChar := by
  simp [lastN, List.map_drop]

/-- C1: the feasibility check returns true iff the case-insensitive substring
"yes" occurs within the last 10 characters of the trimmed reply; a reply ending
in "...decision: YES" yields true, one ending in "...decision: NO" yields
false, and a reply where "yes" appears only earlier than the last 10 characters
yields false. -/
theorem C1_feasibility_suffix_window :
    (∀ reply : Str, receiverCheckerDecision reply = specFeasibilityDecision reply) ∧
    receiverCheckerDecision (lit "After consideration, my decision: YES") = true ∧
    receiverCheckerDecision (lit "After consideration, my decision: NO") = false ∧
    receiverCheckerDecision (lit "yes yes yes, but the final verdict is negative") = false := by
  refine ⟨fun reply => ?_, by decide, by decide, by decide⟩
  unfold receiverCheckerDecision specFeasibilityDecision
  rw [stripWs_map_toLower, lastN_map_toLower]

theorem strListOf_map (vs : List Str) : strListOf (vs.map .jstr) = some vs := by
  induction vs with
  | nil => rfl
  | cons v rest ih => simp [strListOf, ih]

theorem isPrefixOfB_iff (n : Str) : ∀ s : Str, isPrefixOfB n s = true ↔ n <+: s := by
  induction n with
  | nil => intro s; simp [isPrefixOfB]
  | cons a as ih =>
      intro s
      cases s with
      | nil => simp [isPrefixOfB]
      | cons b bs => simp [isPrefixOfB, ih, List.cons_prefix_cons]

theorem containsSub_infix_iff (n s : Str) : containsSub n s = true ↔ n <:+: s := by
  induction s with
  | nil => simp [containsSub, isPrefixOfB_iff]
  | cons c rest ih =>
      simp [containsSub, isPrefixOfB_iff, List.infix_cons_iff, ih]

theorem containsSub_of_eq_append (m a b s : Str) (h : s = a ++ m ++ b) :
    containsSub m s = true := by
  rw [containsSub_infix_iff]
  exact ⟨a, b, h.symm⟩

theorem containsSub_append_left (m b : Str) : containsSub m (m ++ b) = true :=
  containsSub_of_eq_append m [] b (m ++ b) rfl

/-- C2 (amended): the standard-schema round-trip holds for the String and Enum
variants — `from_standard_api` rebuilds a Parameter whose `as_standard_api`
equals the original schema — while the source defines no `from_standard_api`
for NumberParameter or ArrayParameter, so reconstruction from their standard
schemas is unavailable. -/
theorem C2_standard_roundtrip :
    (∀ n d r, ∃ q, Parameter.from_standard_api (as_standard_api (.string n d r)) = some q ∧
        as_standard_api q = as_standard_api (.string n d r)) ∧
    (∀ n d vs r, ∃ q, Parameter.from_standard_api (as_standard_api (.enum n d vs r)) = some q ∧
        as_standard_api q = as_standard_api (.enum n d vs r)) ∧
    (∀ n d r, Parameter.from_standard_api (as_standard_api (.number n d r)) = none) ∧
    (∀ n d r sch, Parameter.from_standard_api (as_standard_api (.array n d r sch)) = none) := by
  refine ⟨fun n d r => ⟨.string n d r, rfl, rfl⟩,
    fun n d vs r => ⟨.enum n d vs r, ?_, rfl⟩,
    fun n d r => rfl, fun n d r sch => rfl⟩
  show (match strListOf (vs.map JValue.jstr) with
        | some ss => some (Parameter.enum n d ss r)
        | none => none) = some (Parameter.enum n d vs r)
  rw [strListOf_map]

/-- C2 counterexample: a NumberParameter's standard schema has no
`from_standard_api` reconstruction at all (the source defines the method only
on StringParameter and EnumParameter), so the four-variant round-trip fails. -/
theorem C2_number_roundtrip_fails :
    Parameter.from_standard_api
      (as_standard_api (.number (lit "x") (lit "d") true)) = none := rfl

/-- C10: an EnumParameter's `as_openai_info` reports type "string" and stores
the allowed values under the key "values" (there is no "enum" key), so feeding
it back through `parameter_from_openai_api` yields a StringParameter and the
allowed-values set is lost. -/
theorem C10_enum_openai_degrades :
    (∀ n d vs r, jlookup (as_openai_info (.enum n d vs r)) (lit "type") =
        some (.jstr (lit "string"))) ∧
    (∀ n d vs r, jlookup (as_openai_info (.enum n d vs r)) (lit "values") =
        some (.jarr (vs.map .jstr))) ∧
    (∀ n d vs r, jlookup (as_openai_info (.enum n d vs r)) (lit "enum") = none) ∧
    (∀ n d vs r nm rq, parameter_from_openai_api nm (as_openai_info (.enum n d vs r)) rq =
        .ok (.string nm d rq)) :=
  ⟨fun _ _ _ _ => rfl, fun _ _ _ _ => rfl, fun _ _ _ _ => rfl,
   fun _ _ _ _ _ _ => rfl⟩

/-- C7 (amended): reconstruction dispatches on the presence of an "enum" key
first — any schema carrying one becomes an EnumParameter regardless of its
type value — and otherwise on the type value, succeeding for "string",
"number" and "array" (with the needed keys present) and failing with the
unknown-parameter-type error for every other type value, including the type
value "enum" itself when no "enum" key is present. -/
theorem C7_openai_reconstruction_dispatch :
    (∀ nm schema rq d vs, jlookup schema (lit "enum") = some (.jarr (vs.map .jstr)) →
        jlookup schema (lit "description") = some (.jstr d) →
        parameter_from_openai_api nm schema rq = .ok (.enum nm d vs rq)) ∧
    (∀ nm schema rq d, jlookup schema (lit "enum") = none →
        jlookup schema (lit "type") = some (.jstr (lit "string")) →
        jlookup schema (lit "description") = some (.jstr d) →
        parameter_from_openai_api nm schema rq = .ok (.string nm d rq)) ∧
    (∀ nm schema rq d, jlookup schema (lit "enum") = none →
        jlookup schema (lit "type") = some (.jstr (lit "number")) →
        jlookup schema (lit "description") = some (.jstr d) →
        parameter_from_openai_api nm schema rq = .ok (.number nm d rq)) ∧
    (∀ nm schema rq d it, jlookup schema (lit "enum") = none →
        jlookup schema (lit "type") = some (.jstr (lit "array")) →
        jlookup schema (lit "description") = some (.jstr d) →
        jlookup schema (lit "items") = some it →
        parameter_from_openai_api nm schema rq = .ok (.array nm d rq it)) ∧
    (∀ nm schema rq t, jlookup schema (lit "enum") = none →
        jlookup schema (lit "type") = some (.jstr t) →
        t ≠ lit "string" → t ≠ lit "number" → t ≠ lit "array" →
        parameter_from_openai_api nm schema rq =
          .error (.unknownParameterType (.jstr t))) := by
  refine ⟨fun nm schema rq d vs h1 h2 => ?_, fun nm schema rq d h1 h2 h3 => ?_,
    fun nm schema rq d h1 h2 h3 => ?_, fun nm schema rq d it h1 h2 h3 h4 => ?_,
    fun nm schema rq t h1 h2 h3 h4 h5 => ?_⟩ <;>
    unfold parameter_from_openai_api
  · rw [h1, h2]
    simp [strListOf_map]
  · rw [h1, h2]
    simp [h3]
  · rw [h1, h2]
    simp [h3, (by decide : ¬(lit "number") = lit "string")]
  · rw [h1, h2]
    simp [h3, h4, (by decide : ¬(lit "array") = lit "string"),
      (by decide : ¬(lit "array") = lit "number")]
  · rw [h1, h2]
    simp [h3, h4, h5]

/-- C7 witness: a schema of type "custom" that carries an "enum" key is
reconstructed as an EnumParameter, and a schema of unrecognized type "banana"
without one fails with the unknown-parameter-type error. -/
theorem C7_openai_reconstruction_dispatch_witness :
    parameter_from_openai_api (lit "p")
      [(lit "type", .jstr (lit "custom")),
       (lit "enum", .jarr [.jstr (lit "a"), .jstr (lit "b")]),
       (lit "description", .jstr (lit "d"))] true
      = .ok (.enum (lit "p") (lit "d") [lit "a", lit "b"] true) ∧
    parameter_from_openai_api (lit "q")
      [(lit "type", .jstr (lit "banana")), (lit "description", .jstr (lit "d"))] false
      = .error (.unknownParameterType (.jstr (lit "banana"))) :=
  ⟨C7_openai_reconstruction_dispatch.1 _ _ _ _ _ rfl rfl,
   C7_openai_reconstruction_dispatch.2.2.2.2 _ _ _ _ rfl rfl
     (by decide) (by decide) (by decide)⟩

/-- C7 counterexample: the type value "enum" is in the claim's recognized set,
yet a schema with that type and no "enum" key fails with the
unknown-parameter-type error, so reconstruction does not succeed for every
schema with a recognized type. -/
theorem C7_recognized_type_enum_fails :
    parameter_from_openai_api (lit "p")
      [(lit "type", .jstr (lit "enum")), (lit "description", .jstr (lit "d"))] true
      = .error (.unknownParameterType (.jstr (lit "enum"))) := rfl

/-- C3 (amended): all four renderings carry the description for every variant,
and the standard-API rendering carries name, description and required-ness for
every variant; the natural-language and documented renderings carry the name
for every variant but reflect required-ness only for the String and Enum
variants; the OpenAI rendering never reflects required-ness and carries the
name only for the String variant. -/
theorem C3_renderings_agreement :
    (∀ p : Parameter, jlookup (as_standard_api p) (lit "name") = some (.jstr p.name) ∧
        jlookup (as_standard_api p) (lit "description") = some (.jstr p.description) ∧
        jlookup (as_standard_api p) (lit "required") = some (.jbool p.required)) ∧
    (∀ p : Parameter, jlookup (as_openai_info p) (lit "description") =
        some (.jstr p.description)) ∧
    (∀ p : Parameter, containsSub p.name (as_natural_language p) = true ∧
        containsSub p.description (as_natural_language p) = true ∧
        containsSub p.name (as_documented_python p) = true ∧
        containsSub p.description (as_documented_python p) = true) ∧
    (∀ n d r, jlookup (as_openai_info (.string n d r)) (lit "name") = some (.jstr n)) ∧
    (∀ n d, as_natural_language (.string n d true) ≠ as_natural_language (.string n d false)) ∧
    (∀ n d vs, as_natural_language (.enum n d vs true) ≠ as_natural_language (.enum n d vs false)) ∧
    (∀ n d, as_documented_python (.string n d true) ≠ as_documented_python (.string n d false)) ∧
    (∀ n d vs, as_documented_python (.enum n d vs true) ≠ as_documented_python (.enum n d vs false)) ∧
    (∀ (p : Parameter) (b : Bool), as_openai_info (p.setRequired b) = as_openai_info p) ∧
    (∀ n d r₁ r₂, as_natural_language (.number n d r₁) = as_natural_language (.number n d r₂)) ∧
    (∀ n d r₁ r₂ sch, as_natural_language (.array n d r₁ sch) = as_natural_language (.array n d r₂ sch)) ∧
    (∀ n d r₁ r₂, as_documented_python (.number n d r₁) = as_documented_python (.number n d r₂)) ∧
    (∀ n d r₁ r₂ sch, as_documented_python (.array n d r₁ sch) = as_documented_python (.array n d r₂ sch)) ∧
    (∀ n₁ n₂ d vs r, as_openai_info (.enum n₁ d vs r) = as_openai_info (.enum n₂ d vs r)) ∧
    (∀ n₁ n₂ d r, as_openai_info (.number n₁ d r) = as_openai_info (.number n₂ d r)) ∧
    (∀ n₁ n₂ d r sch, as_openai_info (.array n₁ d r sch) = as_openai_info (.array n₂ d r sch)) := by
  refine ⟨fun p => ?_, fun p => ?_, fun p => ?_, fun n d r => rfl,
    fun n d => ?_, fun n d vs => ?_, fun n d => ?_, fun n d vs => ?_,
    fun p b => ?_, fun n d r₁ r₂ => rfl, fun n d r₁ r₂ sch => rfl,
    fun n d r₁ r₂ => rfl, fun n d r₁ r₂ sch => rfl,
    fun n₁ n₂ d vs r => rfl, fun n₁ n₂ d r => rfl, fun n₁ n₂ d r sch => rfl⟩
  · cases p <;> exact ⟨rfl, rfl, rfl⟩
  · cases p <;> rfl
  · cases p with
    | string n d r =>
        simp only [Parameter.name, Parameter.description, as_natural_language,
          as_documented_python]
        refine ⟨?_, ?_, ?_, ?_⟩
        · apply containsSub_of_eq_append n []
            (lit " (string" ++ reqSuffix r ++ lit "): " ++ d ++ lit ".")
          simp [List.append_assoc]
        · apply containsSub_of_eq_append d
            (n ++ lit " (string" ++ reqSuffix r ++ lit "): ") (lit ".")
          simp [List.append_assoc]
        · apply containsSub_of_eq_append n []
            (lit " (str" ++ reqSuffix r ++ lit "): " ++ d ++ lit ".")
          simp [List.append_assoc]
        · apply containsSub_of_eq_append d
            (n ++ lit " (str" ++ reqSuffix r ++ lit "): ") (lit ".")
          simp [List.append_assoc]
    | enum n d vs r =>
        simp only [Parameter.name, Parameter.description, as_natural_language,
          as_documented_python]
        refine ⟨?_, ?_, ?_, ?_⟩
        · apply containsSub_of_eq_append n []
            (lit " (enum" ++ reqSuffix r ++ lit "): " ++ d ++
              lit ". Possible values: " ++ joinSep (lit ", ") vs)
          simp [List.append_assoc]
        · apply containsSub_of_eq_append d
            (n ++ lit " (enum" ++ reqSuffix r ++ lit "): ")
            (lit ". Possible values: " ++ joinSep (lit ", ") vs)
          simp [List.append_assoc]
        · apply containsSub_of_eq_append n []
            (lit " (str" ++ reqSuffix r ++ lit "): " ++ d ++
              lit ". Possible values: " ++ joinSep (lit ", ") vs)
          simp [List.append_assoc]
        · apply containsSub_of_eq_append d
            (n ++ lit " (str" ++ reqSuffix r ++ lit "): ")
            (lit ". Possible values: " ++ joinSep (lit ", ") vs)
          simp [List.append_assoc]
    | number n d r =>
        simp only [Parameter.name, Parameter.description, as_natural_language,
          as_documented_python]
        refine ⟨?_, ?_, ?_, ?_⟩
        · apply containsSub_of_eq_append n [] (lit " (number): " ++ d)
          simp [List.append_assoc]
        · apply containsSub_of_eq_append d (n ++ lit " (number): ") []
          simp [List.append_assoc]
        · apply containsSub_of_eq_append n [] (lit " (number): " ++ d)
          simp [List.append_assoc]
        · apply containsSub_of_eq_append d (n ++ lit " (number): ") []
          simp [List.append_assoc]
    | array n d r sch =>
        simp only [Parameter.name, Parameter.description, as_natural_language,
          as_documented_python]
        refine ⟨?_, ?_, ?_, ?_⟩
        · apply containsSub_of_eq_append n []
            (lit " (array): " ++ d ++
              lit ". Each item should follow the JSON schema: " ++ jdump sch)
          simp [List.append_assoc]
        · apply containsSub_of_eq_append d (n ++ lit " (array): ")
            (lit ". Each item should follow the JSON schema: " ++ jdump sch)
          simp [List.append_assoc]
        · apply containsSub_of_eq_append n []
            (lit " (list): " ++ d ++
              lit ". Each item should follow the JSON schema: " ++ jdump sch)
          simp [List.append_assoc]
        · apply containsSub_of_eq_append d (n ++ lit " (list): ")
            (lit ". Each item should follow the JSON schema: " ++ jdump sch)
          simp [List.append_assoc]
  · intro h
    have h2 := congrArg List.length h
    simp only [as_natural_language, reqSuffix, List.length_append, List.length_nil,
      show (lit ", required").length = 10 from rfl] at h2
    omega
  · intro h
    have h2 := congrArg List.length h
    simp only [as_natural_language, reqSuffix, List.length_append, List.length_nil,
      show (lit ", required").length = 10 from rfl] at h2
    omega
  · intro h
    have h2 := congrArg List.length h
    simp only [as_documented_python, reqSuffix, List.length_append, List.length_nil,
      show (lit ", required").length = 10 from rfl] at h2
    omega
  · intro h
    have h2 := congrArg List.length h
    simp only [as_documented_python, reqSuffix, List.length_append, List.length_nil,
      show (lit ", required").length = 10 from rfl] at h2
    omega
  · cases p <;> rfl

/-- C3 counterexample: two String parameters differing only in required-ness
render to the same `as_openai_info` (so no rendering set containing it can
agree on required-ness), the Number variant's natural-language and documented
renderings likewise ignore required-ness, the Enum variant's `as_openai_info`
ignores the name, and the spec's agreement invariant fails even at a plain
String parameter. -/
theorem C3_renderings_disagree :
    as_openai_info (.string (lit "x") (lit "d") true) =
      as_openai_info (.string (lit "x") (lit "d") false) ∧
    as_natural_language (.number (lit "x") (lit "d") true) =
      as_natural_language (.number (lit "x") (lit "d") false) ∧
    as_documented_python (.number (lit "x") (lit "d") true) =
      as_documented_python (.number (lit "x") (lit "d") false) ∧
    as_openai_info (.enum (lit "a") (lit "d") [lit "v"] true) =
      as_openai_info (.enum (lit "b") (lit "d") [lit "v"] true) ∧
    ¬ fourRenderingsAgree (Parameter.string (lit "x") (lit "d") true) :=
  ⟨rfl, rfl, rfl, rfl, fun h => h.2.2.2.2.2.2.2.2.1 rfl⟩

/-- C8: a backend-initiated tool call catches an exception raised by the
wrapped function and returns a diagnostic string incorporating the exception
text, while a successful call passes the return value through unchanged. -/
theorem C8_tool_call_isolation :
    (∀ (t : Tool) (args : List JValue) (r : Str), t.function args = .ok r →
        t.call_tool_for_toolformer args = r) ∧
    (∀ (t : Tool) (args : List JValue) (e : Str), t.function args = .error e →
        t.call_tool_for_toolformer args = lit "Tool call failed: " ++ e) := by
  constructor <;>
    · intro t args x h
      unfold Tool.call_tool_for_toolformer
      rw [h]

/-- C8 witness: a tool returning "hi" passes it through; a tool raising
"boom" yields the diagnostic string. -/
theorem C8_tool_call_isolation_witness :
    Tool.call_tool_for_toolformer
      ⟨lit "echo", lit "echoes", [], fun _ => .ok (lit "hi"), none⟩ [] = lit "hi" ∧
    Tool.call_tool_for_toolformer
      ⟨lit "bomb", lit "explodes", [], fun _ => .error (lit "boom"), none⟩ []
      = lit "Tool call failed: " ++ lit "boom" :=
  ⟨C8_tool_call_isolation.1 _ [] _ rfl, C8_tool_call_isolation.2 _ [] _ rfl⟩

theorem negotiateLoop_congr (conv₁ conv₂ : Nat → Str → Str)
    (cb : Str → CallbackResponse) :
    ∀ (fuel round : Nat) (msg : Str),
      (∀ j m, j < round + fuel → conv₁ j m = conv₂ j m) →
      negotiateLoop conv₁ cb fuel round msg = negotiateLoop conv₂ cb fuel round msg := by
  intro fuel
  induction fuel with
  | zero => intro round msg h; rfl
  | succ f ih =>
      intro round msg h
      have hc : conv₁ round msg = conv₂ round msg := h round msg (by omega)
      simp only [negotiateLoop, hc]
      cases hx : extract_substring (conv₂ round msg)
          (lit "<FINALPROTOCOL>") (lit "</FINALPROTOCOL>") with
      | some body => rfl
      | none => exact ih (round + 1) _ (fun j m hj => h j m (by omega))

theorem negotiateLoop_dichotomy (conv : Nat → Str → Str)
    (cb : Str → CallbackResponse) :
    ∀ (fuel round : Nat) (msg : Str),
      negotiateLoop conv cb fuel round msg = none ∨
      ∃ body j msgIn, j < round + fuel ∧
        extract_substring (conv j msgIn)
          (lit "<FINALPROTOCOL>") (lit "</FINALPROTOCOL>") = some body ∧
        negotiateLoop conv cb fuel round msg =
          some ⟨body, [], extract_metadata body⟩ := by
  intro fuel
  induction fuel with
  | zero => intro round msg; exact Or.inl rfl
  | succ f ih =>
      intro round msg
      cases hx : extract_substring (conv round msg)
          (lit "<FINALPROTOCOL>") (lit "</FINALPROTOCOL>") with
      | some body =>
          refine Or.inr ⟨body, round, msg, by omega, hx, ?_⟩
          simp [negotiateLoop, hx]
      | none =>
          have hstep : negotiateLoop conv cb (f + 1) round msg =
              negotiateLoop conv cb f (round + 1)
                (if (cb (conv round msg)).status = lit "success" then
                  (cb (conv round msg)).body
                 else lit "Error interacting with the other party: " ++
                  (cb (conv round msg)).message) := by
            simp [negotiateLoop, hx]
          rcases ih (round + 1)
              (if (cb (conv round msg)).status = lit "success" then
                (cb (conv round msg)).body
               else lit "Error interacting with the other party: " ++
                (cb (conv round msg)).message) with hnone | ⟨body, j, msgIn, hj, hex, heq⟩
          · exact Or.inl (hstep.trans hnone)
          · exact Or.inr ⟨body, j, msgIn, by omega, hex, hstep.trans heq⟩

/-- C4: the negotiation outcome depends only on the first R rounds'
conversation replies (at most R rounds are performed); it is either `none` or
a Protocol built from a `<FINALPROTOCOL>` block extracted from some reply
within those rounds; and for R = 1 with a first reply containing no delimited
block the outcome is `none` — a normal result, not an exception. -/
theorem C4_negotiator_bounded :
    (∀ (conv₁ conv₂ : Nat → Str → Str) (cb : Str → CallbackResponse) (R : Nat),
        (∀ j m, j < R → conv₁ j m = conv₂ j m) →
        negotiate_protocol_for_task conv₁ cb R = negotiate_protocol_for_task conv₂ cb R) ∧
    (∀ (conv : Nat → Str → Str) (cb : Str → CallbackResponse) (R : Nat),
        negotiate_protocol_for_task conv cb R = none ∨
        ∃ body j msgIn, j < R ∧
          extract_substring (conv j msgIn)
            (lit "<FINALPROTOCOL>") (lit "</FINALPROTOCOL>") = some body ∧
          negotiate_protocol_for_task conv cb R =
            some ⟨body, [], extract_metadata body⟩) ∧
    (∀ (conv : Nat → Str → Str) (cb : Str → CallbackResponse),
        extract_substring (conv 0 (lit "Hello! How may I help you?"))
          (lit "<FINALPROTOCOL>") (lit "</FINALPROTOCOL>") = none →
        negotiate_protocol_for_task conv cb 1 = none) := by
  refine ⟨fun conv₁ conv₂ cb R h => ?_, fun conv cb R => ?_, fun conv cb h => ?_⟩
  · exact negotiateLoop_congr conv₁ conv₂ cb R 0 _ (fun j m hj => h j m (by omega))
  · have := negotiateLoop_dichotomy conv cb R 0 (lit "Hello! How may I help you?")
    simpa [negotiate_protocol_for_task] using this
  · simp [negotiate_protocol_for_task, negotiateLoop, h]

/-- C4 witness: one round against a backend that never emits a
`<FINALPROTOCOL>` block ends with no protocol. -/
theorem C4_negotiator_bounded_witness :
    negotiate_protocol_for_task (fun _ _ => lit "I would like to discuss further.")
      (fun _ => ⟨lit "success", lit "ok", []⟩) 1 = none :=
  C4_negotiator_bounded.2.2 _ _ (by decide)

/-- C6: when extraction fails and the counterparty callback returns a
non-success status, the next outgoing message is the synthesized error report
quoting the failure reason, and the round loop continues rather than
aborting. -/
theorem C6_negotiation_soft_fail :
    ∀ (conv : Nat → Str → Str) (cb : Str → CallbackResponse)
      (fuel round : Nat) (msg : Str),
      extract_substring (conv round msg)
        (lit "<FINALPROTOCOL>") (lit "</FINALPROTOCOL>") = none →
      (cb (conv round msg)).status ≠ lit "success" →
      negotiateLoop conv cb (fuel + 1) round msg =
        negotiateLoop conv cb fuel (round + 1)
          (lit "Error interacting with the other party: " ++
            (cb (conv round msg)).message) := by
  intro conv cb fuel round msg hx hs
  simp [negotiateLoop, hx, hs]

/-- C6 witness: a failing counterparty ("connection lost") turns into the
error report fed to the next round. -/
theorem C6_negotiation_soft_fail_witness :
    negotiateLoop (fun _ _ => lit "hmm")
      (fun _ => ⟨lit "failure", [], lit "connection lost"⟩) 2 0 (lit "hi") =
    negotiateLoop (fun _ _ => lit "hmm")
      (fun _ => ⟨lit "failure", [], lit "connection lost"⟩) 1 1
      (lit "Error interacting with the other party: " ++ lit "connection lost") :=
  C6_negotiation_soft_fail _ _ 1 0 _ (by decide) (by decide)

/-- C5: at the claim's failing input — a backend that never produces an
`<IMPLEMENTATION>` block within the 5 attempts — the call does not fail with a
distinct ImplementationNotFound condition: it crashes on the missing value
(`None.strip()`, an AttributeError), the defect the spec flags. -/
theorem C5_synthesis_exhaustion_crashes :
    senderProgrammerCall (fun _ _ => lit "I am unable to produce that.") 5
      (lit "JSON schema and protocol document") = .error .attributeErrorOnNone := rfl

theorem isPrefixOfB_append_self (n x : Str) : isPrefixOfB n (n ++ x) = true := by
  rw [isPrefixOfB_iff]
  exact ⟨x, rfl⟩

theorem isPrefixOfB_cons_of_ne (h c : Char) (nt xs : Str) (hc : ¬ h = c) :
    isPrefixOfB (h :: nt) (c :: xs) = false := by
  have hb : (h == c) = false := by simp [hc]
  simp [isPrefixOfB, hb]

theorem replaceAllGo_congr (h : Char) (nt repl : Str) :
    ∀ (f₁ f₂ : Nat) (s : Str), s.length ≤ f₁ → s.length ≤ f₂ →
      replaceAllGo (h :: nt) repl f₁ s = replaceAllGo (h :: nt) repl f₂ s := by
  intro f₁
  induction f₁ with
  | zero =>
      intro f₂ s hs₁ hs₂
      have : s = [] := List.eq_nil_of_length_eq_zero (by omega)
      subst this
      cases f₂ <;> rfl
  | succ f ih =>
      intro f₂ s hs₁ hs₂
      cases s with
      | nil => cases f₂ <;> rfl
      | cons c rest =>
          cases f₂ with
          | zero =>
              simp only [List.length_cons] at hs₂
              omega
          | succ f₂' =>
              simp only [replaceAllGo]
              split
              · congr 1
                apply ih <;>
                  · simp only [List.length_drop, List.length_cons] at hs₁ hs₂ ⊢
                    omega
              · congr 1
                apply ih <;>
                  · simp only [List.length_cons] at hs₁ hs₂
                    omega

theorem replaceAll_cons_self (h : Char) (nt repl rest : Str) :
    replaceAll (h :: nt) repl ((h :: nt) ++ rest) = repl ++ replaceAll (h :: nt) repl rest := by
  have hpre : isPrefixOfB (h :: nt) (h :: (nt ++ rest)) = true :=
    isPrefixOfB_append_self (h :: nt) rest
  have hlen : ((h :: nt) ++ rest).length = (nt.length + rest.length) + 1 := by
    simp only [List.cons_append, List.length_cons, List.length_append]
  have hdrop : List.drop (h :: nt).length (h :: (nt ++ rest)) = rest := by
    show List.drop (nt.length + 1) (h :: (nt ++ rest)) = rest
    rw [List.drop_succ_cons]
    exact List.drop_left nt rest
  unfold replaceAll
  rw [hlen]
  show replaceAllGo (h :: nt) repl ((nt.length + rest.length) + 1) (h :: (nt ++ rest)) =
    repl ++ replaceAllGo (h :: nt) repl rest.length rest
  simp only [replaceAllGo, hpre, if_true]
  rw [hdrop]
  congr 1
  exact replaceAllGo_congr h nt repl _ _ rest (by omega) (by omega)

theorem replaceAllGo_skip (h : Char) (nt repl : Str) :
    ∀ (pre tail : Str) (f : Nat), h ∉ pre →
      replaceAllGo (h :: nt) repl (pre.length + f) (pre ++ tail) =
        pre ++ replaceAllGo (h :: nt) repl f tail := by
  intro pre
  induction pre with
  | nil => intro tail f hp; simp
  | cons c pre' ih =>
      intro tail f hp
      have hc : ¬ h = c := fun he => hp (by simp [he])
      have hp' : h ∉ pre' := fun hm => hp (List.mem_cons_of_mem c hm)
      rw [show (c :: pre').length + f = (pre'.length + f) + 1 by
        simp only [List.length_cons]; omega]
      show replaceAllGo (h :: nt) repl ((pre'.length + f) + 1) (c :: (pre' ++ tail)) = _
      simp only [replaceAllGo, isPrefixOfB_cons_of_ne h c nt _ hc, if_false]
      rw [ih tail f hp']
      simp

theorem replaceAll_append_left (h : Char) (nt repl pre tail : Str) (hp : h ∉ pre) :
    replaceAll (h :: nt) repl (pre ++ tail) = pre ++ replaceAll (h :: nt) repl tail := by
  unfold replaceAll
  rw [List.length_append]
  exact replaceAllGo_skip h nt repl pre tail tail.length hp

theorem replaceAllGo_contains (h : Char) (nt repl : Str) :
    ∀ (f : Nat) (s : Str), s.length ≤ f → containsSub (h :: nt) s = true →
      ∃ a b, replaceAllGo (h :: nt) repl f s = (a ++ repl) ++ b := by
  intro f
  induction f with
  | zero =>
      intro s hs hc
      have : s = [] := List.eq_nil_of_length_eq_zero (by omega)
      subst this
      simp [containsSub, isPrefixOfB] at hc
  | succ f ih =>
      intro s hs hc
      cases s with
      | nil => simp [containsSub, isPrefixOfB] at hc
      | cons c rest =>
          cases hp : isPrefixOfB (h :: nt) (c :: rest) with
          | true =>
              exact ⟨[], replaceAllGo (h :: nt) repl f
                (List.drop (h :: nt).length (c :: rest)), by simp [replaceAllGo, hp]⟩
          | false =>
              have hc' : containsSub (h :: nt) rest = true := by
                simpa [containsSub, hp] using hc
              obtain ⟨a, b, hab⟩ := ih rest
                (by simp only [List.length_cons] at hs; omega) hc'
              exact ⟨c :: a, b, by simp [replaceAllGo, hp, hab]⟩

theorem replaceAll_contains (h : Char) (nt repl s : Str)
    (hc : containsSub (h :: nt) s = true) :
    ∃ a b, replaceAll (h :: nt) repl s = (a ++ repl) ++ b :=
  replaceAllGo_contains h nt repl s.length s (Nat.le_refl _) hc

theorem mem_replaceAllGo (n repl : Str) :
    ∀ (f : Nat) (s : Str) (c : Char), c ∈ replaceAllGo n repl f s → c ∈ s ∨ c ∈ repl := by
  intro f
  induction f with
  | zero =>
      intro s c hm
      cases s with
      | nil => simp [replaceAllGo] at hm
      | cons a rest => exact Or.inl (by simpa [replaceAllGo] using hm)
  | succ f ih =>
      intro s c hm
      cases s with
      | nil => simp [replaceAllGo] at hm
      | cons a rest =>
          cases hp : isPrefixOfB n (a :: rest) with
          | true =>
              simp [replaceAllGo, hp] at hm
              rcases hm with hm | hm
              · exact Or.inr hm
              · rcases ih _ c hm with hm' | hm'
                · exact Or.inl (List.mem_of_mem_drop hm')
                · exact Or.inr hm'
          | false =>
              simp [replaceAllGo, hp] at hm
              rcases hm with hm | hm
              · exact Or.inl (by simp [hm])
              · rcases ih _ c hm with hm' | hm'
                · exact Or.inl (List.mem_cons_of_mem a hm')
                · exact Or.inr hm'

theorem mem_replaceAll (n repl s : Str) (c : Char) (hm : c ∈ replaceAll n repl s) :
    c ∈ s ∨ c ∈ repl :=
  mem_replaceAllGo n repl s.length s c hm

theorem mem_stripWs (c : Char) (l : Str) (h : c ∈ stripWs l) : c ∈ l := by
  unfold stripWs trimRight trimLeft at h
  rw [List.mem_reverse] at h
  have h1 : c ∈ (l.dropWhile isWsChar).reverse := (List.dropWhile_sublist _).subset h
  rw [List.mem_reverse] at h1
  exact (List.dropWhile_sublist _).subset h1

theorem infix_dropWhile_of_head (p : Char → Bool) (d : Char) (pt : Str)
    (hd : p d = false) :
    ∀ (a b l : Str), (a ++ (d :: pt)) ++ b = l → (d :: pt) <:+: l.dropWhile p := by
  intro a
  induction a with
  | nil =>
      intro b l hab
      subst hab
      refine ⟨[], b, ?_⟩
      simp [List.dropWhile_cons, hd]
  | cons c a' ih =>
      intro b l hab
      subst hab
      show (d :: pt) <:+: List.dropWhile p (c :: ((a' ++ (d :: pt)) ++ b))
      rw [List.dropWhile_cons]
      by_cases hc : p c = true
      · rw [if_pos hc]
        exact ih b _ rfl
      · rw [if_neg hc]
        exact ⟨c :: a', b, by simp⟩

theorem infix_stripWs (d : Char) (pt : Str) (e : Char) (et : Str) (l : Str)
    (hrev : (d :: pt).reverse = e :: et)
    (hd : isWsChar d = false) (he : isWsChar e = false)
    (h : (d :: pt) <:+: l) : (d :: pt) <:+: stripWs l := by
  have h1 : (d :: pt) <:+: trimLeft l := by
    obtain ⟨a, b, hab⟩ := h
    exact infix_dropWhile_of_head isWsChar d pt hd a b l hab
  have h2 : (e :: et) <:+: (trimLeft l).reverse := by
    rw [← hrev]
    exact List.IsInfix.reverse h1
  have h3 : (e :: et) <:+: (trimLeft l).reverse.dropWhile isWsChar := by
    obtain ⟨a, b, hab⟩ := h2
    exact infix_dropWhile_of_head isWsChar e et he a b _ hab
  have h4 := List.IsInfix.reverse h3
  rw [← hrev, List.reverse_reverse] at h4
  exact h4

theorem containsSub_stripWs (d : Char) (pt : Str) (e : Char) (et : Str) (l : Str)
    (hrev : (d :: pt).reverse = e :: et)
    (hd : isWsChar d = false) (he : isWsChar e = false)
    (h : containsSub (d :: pt) l = true) :
    containsSub (d :: pt) (stripWs l) = true := by
  rw [containsSub_infix_iff] at h ⊢
  exact infix_stripWs d pt e et l hrev hd he h

theorem takeBeforeFirst_append (h : Char) (nt : Str) :
    ∀ (pre tail : Str), h ∉ pre →
      takeBeforeFirst (h :: nt) (pre ++ tail) =
        (takeBeforeFirst (h :: nt) tail).map (pre ++ ·) := by
  intro pre
  induction pre with
  | nil =>
      intro tail hp
      cases htail : takeBeforeFirst (h :: nt) tail <;> simp [htail]
  | cons c pre' ih =>
      intro tail hp
      have hc : ¬ h = c := fun he => hp (by simp [he])
      have hp' : h ∉ pre' := fun hm => hp (List.mem_cons_of_mem c hm)
      show takeBeforeFirst (h :: nt) (c :: (pre' ++ tail)) = _
      simp only [takeBeforeFirst, isPrefixOfB_cons_of_ne h c nt _ hc, if_false]
      rw [ih tail hp']
      cases htail : takeBeforeFirst (h :: nt) tail <;> simp [htail]

theorem trimRight_concat (xs : Str) (c : Char) (h : isWsChar c = false) :
    trimRight (xs ++ [c]) = xs ++ [c] := by
  unfold trimRight
  rw [List.reverse_append]
  simp only [List.reverse_cons, List.reverse_nil, List.nil_append, List.singleton_append]
  rw [List.dropWhile_cons, if_neg (by simp [h])]
  simp

theorem stripWs_fenced (body : Str) :
    stripWs ((lit "```python\n" ++ body) ++ lit "\n```") =
      (lit "```python\n" ++ body) ++ lit "\n```" := by
  have h1 : trimLeft ((lit "```python\n" ++ body) ++ lit "\n```") =
      (lit "```python\n" ++ body) ++ lit "\n```" := rfl
  unfold stripWs
  rw [h1]
  rw [show ((lit "```python\n" ++ body) ++ lit "\n```" : Str) =
      ((lit "```python\n" ++ body) ++ lit "\n``") ++ [fenceChar] from by
    rw [show (lit "\n```" : Str) = lit "\n``" ++ [fenceChar] from by decide]
    simp [List.append_assoc]]
  rw [trimRight_concat _ _ (by decide)]

theorem extract_fenced (body : Str) (hlt : ('<' : Char) ∉ body) :
    extract_substring
      ((lit "<IMPLEMENTATION>" ++ ((lit "```python\n" ++ body) ++ lit "\n```")) ++
        lit "</IMPLEMENTATION>")
      (lit "<IMPLEMENTATION>") (lit "</IMPLEMENTATION>") =
      some ((lit "```python\n" ++ body) ++ lit "\n```") := by
  have hmem : ('<' : Char) ∉ (lit "```python\n" ++ body) ++ lit "\n```" := by
    intro hm
    rcases List.mem_append.mp hm with hm | hm
    · rcases List.mem_append.mp hm with hm' | hm'
      · exact absurd hm' (by decide)
      · exact hlt hm'
    · exact absurd hm (by decide)
  unfold extract_substring
  rw [show dropAfterFirst (lit "<IMPLEMENTATION>")
      ((lit "<IMPLEMENTATION>" ++ ((lit "```python\n" ++ body) ++ lit "\n```")) ++
        lit "</IMPLEMENTATION>") =
      some (((lit "```python\n" ++ body) ++ lit "\n```") ++ lit "</IMPLEMENTATION>") from rfl]
  show takeBeforeFirst (lit "</IMPLEMENTATION>")
      (((lit "```python\n" ++ body) ++ lit "\n```") ++ lit "</IMPLEMENTATION>") =
    some ((lit "```python\n" ++ body) ++ lit "\n```")
  have h2 := takeBeforeFirst_append '<' (lit "/IMPLEMENTATION>")
    ((lit "```python\n" ++ body) ++ lit "\n```") (lit "</IMPLEMENTATION>") hmem
  refine h2.trans ?_
  rw [show takeBeforeFirst ('<' :: lit "/IMPLEMENTATION>") (lit "</IMPLEMENTATION>") =
      some [] from rfl]
  simp

/-- C9: when the backend's first reply carries a fenced `<IMPLEMENTATION>`
block whose body contains the `def send_query(` entry point (and no stray
backticks or angle brackets), the Synthesizer strips the fence markers,
renames the entry point, and returns adapter text containing the canonical
`def run(` name and no residual fence markers. -/
theorem C9_synthesizer_sanitization :
    ∀ (conv : Nat → Str → Str) (message body : Str) (n : Nat),
      conv 0 message =
        (lit "<IMPLEMENTATION>" ++ ((lit "```python\n" ++ body) ++ lit "\n```")) ++
          lit "</IMPLEMENTATION>" →
      fenceChar ∉ body → ('<' : Char) ∉ body →
      containsSub (lit "def send_query(") body = true →
      ∃ code, senderProgrammerCall conv (n + 1) message = .ok code ∧
        containsSub (lit "def run(") code = true ∧
        containsSub (lit "```") code = false := by
  intro conv message body n hreply hbt hlt hocc
  have hex : extract_substring (conv 0 message) (lit "<IMPLEMENTATION>")
      (lit "</IMPLEMENTATION>") = some ((lit "```python\n" ++ body) ++ lit "\n```") := by
    rw [hreply]
    exact extract_fenced body hlt
  have hloop : synthLoop conv (n + 1) 0 message =
      some ((lit "```python\n" ++ body) ++ lit "\n```") := by
    simp [synthLoop, hex]
  have hB : replaceAll (lit "```python") []
      ((lit "```python\n" ++ body) ++ lit "\n```") =
      (lit "\n" ++ body) ++ lit "\n```" := by
    rw [show ((lit "```python\n" ++ body) ++ lit "\n```" : Str) =
        lit "```python" ++ ((lit "\n" ++ body) ++ lit "\n```") from by
      rw [show (lit "```python\n" : Str) = lit "```python" ++ lit "\n" from by decide]
      simp [List.append_assoc]]
    rw [show (lit "```python" : Str) = fenceChar :: lit "``python" from by decide]
    rw [replaceAll_cons_self fenceChar (lit "``python") []
      ((lit "\n" ++ body) ++ lit "\n```")]
    rw [replaceAll_append_left fenceChar (lit "``python") [] (lit "\n" ++ body)
      (lit "\n```") (by
        intro hm
        rcases List.mem_append.mp hm with hm | hm
        · exact absurd hm (by decide)
        · exact hbt hm)]
    rw [show replaceAll (fenceChar :: lit "``python") [] (lit "\n```") =
        lit "\n```" from rfl]
    simp
  have hC : replaceAll (lit "```") [] ((lit "\n" ++ body) ++ lit "\n```") =
      (lit "\n" ++ body) ++ lit "\n" := by
    rw [show ((lit "\n" ++ body) ++ lit "\n```" : Str) =
        ((lit "\n" ++ body) ++ lit "\n") ++ lit "```" from by
      rw [show (lit "\n```" : Str) = lit "\n" ++ lit "```" from by decide]
      simp [List.append_assoc]]
    rw [show (lit "```" : Str) = fenceChar :: lit "``" from by decide]
    rw [replaceAll_append_left fenceChar (lit "``") [] ((lit "\n" ++ body) ++ lit "\n")
      (fenceChar :: lit "``") (by
        intro hm
        rcases List.mem_append.mp hm with hm | hm
        · rcases List.mem_append.mp hm with hm' | hm'
          · exact absurd hm' (by decide)
          · exact hbt hm'
        · exact absurd hm (by decide))]
    rw [show replaceAll (fenceChar :: lit "``") [] (fenceChar :: lit "``") =
        ([] : Str) from rfl]
    simp
  have hpost : postprocessImplementation ((lit "```python\n" ++ body) ++ lit "\n```") =
      replaceAll (lit "def send_query(") (lit "def run(")
        (stripWs ((lit "\n" ++ body) ++ lit "\n")) := by
    unfold postprocessImplementation
    rw [stripWs_fenced body, hB, hC]
  have hoccMid : containsSub (lit "def send_query(")
      ((lit "\n" ++ body) ++ lit "\n") = true := by
    rw [containsSub_infix_iff] at hocc ⊢
    exact hocc.trans ⟨lit "\n", lit "\n", rfl⟩
  have hoccM : containsSub (lit "def send_query(")
      (stripWs ((lit "\n" ++ body) ++ lit "\n")) = true :=
    containsSub_stripWs 'd' (lit "ef send_query(") '(' (lit "yreuq_dnes fed")
      ((lit "\n" ++ body) ++ lit "\n") (by decide) (by decide) (by decide) hoccMid
  refine ⟨replaceAll (lit "def send_query(") (lit "def run(")
    (stripWs ((lit "\n" ++ body) ++ lit "\n")), ?_, ?_, ?_⟩
  · unfold senderProgrammerCall
    rw [hloop]
    exact congrArg Except.ok hpost
  · obtain ⟨a, b, hab⟩ := replaceAll_contains 'd' (lit "ef send_query(")
      (lit "def run(") (stripWs ((lit "\n" ++ body) ++ lit "\n")) hoccM
    exact containsSub_of_eq_append (lit "def run(") a b _ hab
  · rw [Bool.eq_false_iff]
    intro hcc
    rw [containsSub_infix_iff] at hcc
    have hmem : fenceChar ∈ replaceAll (lit "def send_query(") (lit "def run(")
        (stripWs ((lit "\n" ++ body) ++ lit "\n")) := hcc.subset (by decide)
    rcases mem_replaceAll _ _ _ _ hmem with hm | hm
    · have hm2 := mem_stripWs _ _ hm
      rcases List.mem_append.mp hm2 with hm' | hm'
      · rcases List.mem_append.mp hm' with hm'' | hm''
        · exact absurd hm'' (by decide)
        · exact hbt hm''
      · exact absurd hm' (by decide)
    · exact absurd hm (by decide)

/-- C9 witness: a concrete fenced implementation on the first of 5 attempts
yields adapter text with the canonical entry point and no fences. -/
theorem C9_synthesizer_sanitization_witness :
    ∃ code, senderProgrammerCall
        (fun _ _ => (lit "<IMPLEMENTATION>" ++ ((lit "```python\n" ++
          lit "def send_query(task_data):\n    return task_data") ++ lit "\n```")) ++
          lit "</IMPLEMENTATION>") 5 (lit "schema and protocol") = .ok code ∧
      containsSub (lit "def run(") code = true ∧
      containsSub (lit "```") code = false :=
  C9_synthesizer_sanitization _ _ _ 4 rfl (by decide) (by decide) (by decide)
